import Mathlib

/-!
Verification of the Job-Agents ingestion/storage/search pipeline.

Shallow embedding of the Python sources:
  * `job_agent/job_agent/core.py`       — schema (DDL), `request_with_backoff`
  * `job_agent/job_agent/greenhouse.py` — BoardAPI adapter `upsert_job`
  * `job_agent/job_agent/lever.py`      — PostingsAPI adapter `upsert_job`, `_first_location`
  * `job_agent/job_agent/workday.py`    — PaginatedSearchAPI adapter `fetch_jobs`, `upsert_job`
  * `job_agent/job_agent/normalizer.py` — `infer_level`, `infer_work_type`, `normalize_fields`
  * `job_agent/job_agent/search.py`     — `search_jobs` (FTS path and LIKE fallback path)

The SQLite `jobs` table is modelled as a `List Job` (one element per row, in
rowid order); the shared `INSERT ... ON CONFLICT(canonical_key) DO UPDATE`
statement is modelled by `db_upsert`.  Wall-clock times (`datetime.now`) are
passed in as explicit parameters.
-/

/-- Python `a or b` on optional strings: `None` and `""` are falsy. -/
def pyOr (a b : Option String) : Option String :=
  match a with
  | some s => if s = "" then b else some s
  | none => b

/-- Python `a or b` on optional numbers: `None` and `0` are falsy. -/
def pyOrInt (a b : Option Int) : Option Int :=
  match a with
  | some n => if n = 0 then b else some n
  | none => b

/-- Split a character list at every character satisfying `p` (separators are
dropped, empty segments kept — the semantics of `re.split` on a character
class / `str.split(sep)`). -/
def splitChars (p : Char → Bool) : List Char → List (List Char)
  | [] => [[]]
  | c :: cs =>
    let r := splitChars p cs
    if p c then [] :: r
    else
      match r with
      | t :: ts => (c :: t) :: ts
      | [] => [[c]]

/-- Python `s.strip()`: drop whitespace from both ends. -/
def pyStrip (s : String) : String :=
  ⟨((s.data.dropWhile Char.isWhitespace).reverse.dropWhile Char.isWhitespace).reverse⟩

/-- Python `s.split()` (no argument): split on whitespace runs, dropping
empty segments. -/
def pySplitWs (s : String) : List String :=
  ((splitChars (fun c => c.isWhitespace) s.data).filter (fun t => t ≠ [])).map
    (fun l => ⟨l⟩)

/-- Python `" ".join(xs)`. -/
def joinWith (sep : String) : List String → String
  | [] => ""
  | [x] => x
  | x :: y :: xs => x ++ sep ++ joinWith sep (y :: xs)

/-- Python `" ".join(s.split())`: collapse runs of whitespace to single spaces
and strip the ends (used for Greenhouse titles). -/
def collapse_ws (s : String) : String :=
  joinWith " " (pySplitWs s)

/-- One row of the `jobs` table (DDL in `core.py`).  `location` and
`posted_at` are nullable columns; all others are `NOT NULL`. -/
structure Job where
  board_token : String
  org_name : String
  title : String
  description : String
  location : Option String
  post_url : String
  posted_at : Option String
  first_seen_at : String
  last_seen_at : String
  canonical_key : String
deriving Repr, DecidableEq

/-- Models `hashlib.md5(url.encode()).hexdigest()`: a deterministic
fingerprint of the canonical URL.  The digest computation itself is external
library code; it is abstracted as the identity function — the development
uses only that it is a pure deterministic function of the URL. -/
def md5hex (s : String) : String := s

/-- The `DO UPDATE SET` clause of the shared upsert statement, applied to a
stored row `j` for an incoming row `r`:
`last_seen_at=excluded.last_seen_at, title=excluded.title,
 description=excluded.description, location=excluded.location,
 posted_at=COALESCE(excluded.posted_at, jobs.posted_at)`.
`org_name`, `board_token`, `post_url` and `first_seen_at` are not in the
update list and keep their stored values. -/
def row_update (r j : Job) : Job :=
  { j with
    last_seen_at := r.last_seen_at
    title := r.title
    description := r.description
    location := r.location
    posted_at := match r.posted_at with
                 | some p => some p
                 | none => j.posted_at }

/-- The shared SQL statement of the three adapters:
`INSERT INTO jobs (...) VALUES (...) ON CONFLICT(canonical_key) DO UPDATE ...`.
If a row with the incoming `canonical_key` exists it is updated in place by
`row_update`, otherwise the incoming row is appended. -/
def db_upsert (db : List Job) (r : Job) : List Job :=
  if db.any (fun j => j.canonical_key = r.canonical_key) then
    db.map (fun j => if j.canonical_key = r.canonical_key then row_update r j else j)
  else db ++ [r]

/-! ## Greenhouse (BoardAPI) adapter, `greenhouse.py` -/

/-- The fields of one raw Greenhouse job JSON object that `upsert_job` reads.
`location_name` models `(j.get("location") or {}).get("name")`. -/
structure GhJob where
  absolute_url : Option String
  title : Option String
  location_name : Option String
  content : Option String
  updated_at : Option String
  created_at : Option String
deriving Repr, DecidableEq

/-- Models `core._parse_iso` composed with `.isoformat()` as used in
`greenhouse.upsert_job`: a missing or empty string yields `None`; a nonempty
timestamp string survives the round-trip (the datetime parse/format
round-trip is abstracted as the identity on nonempty strings; failure on
malformed text is outside the claims). -/
def parse_iso : Option String → Option String
  | none => none
  | some s => if s = "" then none else some s

/-- `posted = _parse_iso(j.get("updated_at") or j.get("created_at"))` in
`greenhouse.upsert_job`: the update-time is preferred over the create-time. -/
def gh_derived_posted (j : GhJob) : Option String :=
  parse_iso (pyOr j.updated_at j.created_at)

/-- The `jobs` row `greenhouse.upsert_job` builds from a raw record. -/
def gh_row (board_token org_name : String) (j : GhJob) (now : String) : Job :=
  let url := pyStrip (j.absolute_url.getD "")
  let loc := pyStrip (j.location_name.getD "")
  { board_token := board_token
    org_name := org_name
    title := collapse_ws (j.title.getD "")
    description := pyStrip (j.content.getD "")
    location := if loc = "" then none else some loc
    post_url := url
    posted_at := gh_derived_posted j
    first_seen_at := now
    last_seen_at := now
    canonical_key := md5hex url }

/-- `greenhouse.upsert_job(conn, board_token, org_name, j)`: skip when the
trimmed `absolute_url` is blank, otherwise run the shared upsert statement. -/
def gh_upsert_job (db : List Job) (board_token org_name : String) (j : GhJob)
    (now : String) : List Job :=
  if pyStrip (j.absolute_url.getD "") = "" then db
  else db_upsert db (gh_row board_token org_name j now)

/-! ## Lever (PostingsAPI) adapter, `lever.py` -/

/-- One element of a Lever `workplaceLocations` list: a dict with optional
`name`/`location` keys, a plain string, or anything else. -/
inductive LeverLocItem where
  | obj (name location : Option String)
  | str (s : String)
  | other
deriving Repr, DecidableEq

/-- The `workplaceLocations` candidate handed to `_first_location`: Lever can
return a string, a dict, or a list. -/
inductive LeverLoc where
  | str (s : String)
  | obj (name location : Option String)
  | list (items : List LeverLocItem)
deriving Repr, DecidableEq

/-- The loop body of `_first_location` over a list candidate: return the
first dict item with a truthy `name` or `location`, or the first plain
string item (returned even when empty). -/
def lever_scan_items : List LeverLocItem → Option String
  | [] => none
  | .obj name location :: rest =>
    match pyOr name (pyOr location none) with
    | some s => some s
    | none => lever_scan_items rest
  | .str s :: _ => some s
  | .other :: rest => lever_scan_items rest

/-- `lever._first_location(candidate)`: normalize a string / dict / list
location candidate to a single optional string.  A falsy candidate (`None`,
`""`, empty list, empty dict) yields `None`; an empty dict and a dict whose
keys are all missing both yield `None`, so they are modelled alike. -/
def lever_first_location : Option LeverLoc → Option String
  | none => none
  | some (.str s) => if s = "" then none else some s
  | some (.obj name location) => pyOr name (pyOr location none)
  | some (.list items) => lever_scan_items items

/-- The fields of one raw Lever posting JSON object that `upsert_job` reads.
`team`, `department` and `cat_location` model `categories.team`,
`categories.department` and `categories.location` (all `none` when the
`categories` dict is absent); `lists_texts` models the `text` fields of the
dict items of `lists` (`none` when `lists` is not a list). -/
structure LeverJob where
  hostedUrl : Option String
  applyUrl : Option String
  text : Option String
  title : Option String
  team : Option String
  department : Option String
  cat_location : Option String
  workplaceLocations : Option LeverLoc
  country : Option String
  location : Option String
  lists_texts : Option (List String)
  descriptionPlain : Option String
  description : Option String
  createdAt : Option Int
  updatedAt : Option Int
deriving Repr, DecidableEq

/-- Models `datetime.fromtimestamp(ts/1000.0, tz=timezone.utc).isoformat()`:
an injective rendering of the millisecond epoch value.  The textual ISO form
is abstracted as the decimal rendering of the raw value — the development
uses only that distinct epoch values render differently. -/
def fromtimestamp_iso (ms : Int) : String := toString ms

/-- `ts = j.get("createdAt") or j.get("updatedAt")` then
`posted_at = ...fromtimestamp(ts/1000.0...).isoformat() if isinstance(ts, (int, float))`
in `lever.upsert_job`: the create-time is preferred over the update-time. -/
def lever_derived_posted (j : LeverJob) : Option String :=
  match pyOrInt j.createdAt j.updatedAt with
  | some ts => some (fromtimestamp_iso ts)
  | none => none

/-- `lever.upsert_job(conn, company, j)`: skip when the trimmed
`hostedUrl or applyUrl` is blank, otherwise run the shared upsert
statement. -/
def lever_upsert_job (db : List Job) (company : String) (j : LeverJob)
    (now : String) : List Job :=
  let url := pyStrip ((pyOr j.hostedUrl (pyOr j.applyUrl none)).getD "")
  if url = "" then db
  else
    let title := pyStrip ((pyOr j.text (pyOr j.title none)).getD "")
    let org1 := (pyOr j.team (pyOr j.department (pyOr (some company) none))).getD ""
    let org_name := if org1 = "" then company else org1
    let loc := pyOr (lever_first_location j.workplaceLocations)
      (pyOr j.cat_location (pyOr j.country (pyOr j.location none)))
    let desc0 := match j.lists_texts with
                 | some texts => joinWith "\n" (texts.map pyStrip)
                 | none => ""
    let desc := (pyOr (some desc0)
      (pyOr j.descriptionPlain (pyOr j.description none))).getD ""
    db_upsert db
      { board_token := "lever:" ++ company
        org_name := org_name
        title := title
        description := pyStrip desc
        location := match loc with
                    | some l => if l = "" then none else some l
                    | none => none
        post_url := url
        posted_at := lever_derived_posted j
        first_seen_at := now
        last_seen_at := now
        canonical_key := md5hex url }

/-- A Lever record with every optional field absent (base for concrete
instances in witnesses and counterexamples). -/
def leverEmpty : LeverJob :=
  { hostedUrl := none, applyUrl := none, text := none, title := none
    team := none, department := none, cat_location := none
    workplaceLocations := none, country := none, location := none
    lists_texts := none, descriptionPlain := none, description := none
    createdAt := none, updatedAt := none }

/-! ## Workday (PaginatedSearchAPI) adapter, `workday.py` -/

/-- Split a character list at the first occurrence of `"://"`. -/
def breakScheme : List Char → Option (List Char × List Char)
  | [] => none
  | ':' :: '/' :: '/' :: rest => some ([], rest)
  | c :: rest =>
    match breakScheme rest with
    | some (a, b) => some (c :: a, b)
    | none => none

/-- Split a character list at the first `'/'` (the slash stays with the
second part). -/
def breakSlash : List Char → List Char × List Char
  | [] => ([], [])
  | '/' :: rest => ([], '/' :: rest)
  | c :: rest =>
    let r := breakSlash rest
    (c :: r.1, r.2)

/-- Take characters up to the first `'?'` or `'#'` (drop query/fragment). -/
def breakQF : List Char → List Char
  | [] => []
  | '?' :: _ => []
  | '#' :: _ => []
  | c :: rest => c :: breakQF rest

/-- Models `urllib.parse.urlsplit` for the http(s) URLs this pipeline
handles: `(scheme, netloc, path)` with query and fragment dropped (the code
never passes them through). -/
def url_parts (u : String) : String × String × String :=
  match breakScheme u.data with
  | some (sch, rest) =>
    let hr := breakSlash rest
    (⟨sch⟩, ⟨hr.1⟩, ⟨breakQF hr.2⟩)
  | none => ("", "", ⟨breakQF u.data⟩)

/-- Models `urllib.parse.urlunsplit((scheme, netloc, path, "", ""))`. -/
def urlunsplit_snp (s h p : String) : String :=
  (if s = "" then "" else s ++ ":") ++ (if h = "" then "" else "//" ++ h) ++ p

/-- `workday._base_root(cxs_url)`: scheme plus host of the endpoint URL. -/
def base_root (u : String) : String :=
  let parts := url_parts u
  urlunsplit_snp parts.1 parts.2.1 ""

/-- Python `s.rstrip("/")`: drop every trailing slash. -/
def rstripSlash (s : String) : String :=
  ⟨(s.data.reverse.dropWhile (fun c => c = '/')).reverse⟩

/-- `workday._normalize_url(u)`: lower-cased host, path without trailing
slashes, query and fragment dropped. -/
def normalize_url (u : String) : String :=
  let parts := url_parts u
  urlunsplit_snp parts.1 ⟨parts.2.1.data.map Char.toLower⟩ (rstripSlash parts.2.2)

/-- The fields of one raw Workday `jobPosting` dict that `upsert_job` reads.
`subtitles` holds the `title` values of the subtitle dicts (empty when the
field is absent or not a list; the code reads only element 0's `title`,
assumed present on dict subtitles). -/
structure WdJob where
  title : Option String
  subtitles : List String
  locationsText : Option String
  location : Option String
  postedOn : Option String
  postedDate : Option String
  createdOn : Option String
  externalPath : Option String
  externalUrlPath : Option String
deriving Repr, DecidableEq

/-- `workday.upsert_job(conn, endpoint_label, rec)`: skip when the trimmed
title is blank or when `externalPath or externalUrlPath` is blank; otherwise
build the public URL from the endpoint's origin plus the external path,
normalize it, and run the shared upsert statement.  (The trailing optional
`normalize_fields` UPDATE in the source targets columns that do not exist in
the DDL, so its `except Exception: pass` always swallows it — it never
changes a row and is not modelled.) -/
def wd_upsert_job (db : List Job) (endpoint_label : String) (rec : WdJob)
    (now : String) : List Job :=
  let title := pyStrip (rec.title.getD "")
  if title = "" then db
  else
    let org0 := match rec.subtitles with
                | s :: _ => pyStrip s
                | [] => ""
    let org_name := if org0 = "" then endpoint_label else org0
    let location := pyStrip ((pyOr rec.locationsText rec.location).getD "")
    let external_path := (pyOr rec.externalPath rec.externalUrlPath).getD ""
    if external_path = "" then db
    else
      let url := normalize_url (base_root endpoint_label ++ external_path)
      db_upsert db
        { board_token := "workday:" ++ endpoint_label
          org_name := org_name
          title := title
          description := ""
          location := if location = "" then none else some location
          post_url := url
          posted_at := pyOr rec.postedOn (pyOr rec.postedDate rec.createdOn)
          first_seen_at := now
          last_seen_at := now
          canonical_key := md5hex url }

/-- The pagination loop of `workday.fetch_jobs`:
`for _ in range(max_pages): posts = page(offset); if not posts: break;
 all_posts.extend(posts); if len(posts) < page_limit: break; offset += page_limit`.
`fetchPage offset` models the (successful) JSON page returned for a request
with that offset (via POST, or the GET retransmission on 400/405).  Returns
the accumulated records and the number of page requests issued. -/
def wd_fetch_pages (fetchPage : Nat → List α) (page_limit : Nat) :
    Nat → Nat → List α × Nat
  | 0, _ => ([], 0)
  | fuel + 1, offset =>
    let posts := fetchPage offset
    if posts.isEmpty then ([], 1)
    else if posts.length < page_limit then (posts, 1)
    else
      let r := wd_fetch_pages fetchPage page_limit fuel (offset + page_limit)
      (posts ++ r.1, r.2 + 1)

/-- `workday.fetch_jobs` (pagination behaviour): start at offset 0 with at
most `max_pages` iterations. -/
def wd_fetch_jobs (fetchPage : Nat → List α) (page_limit max_pages : Nat) :
    List α × Nat :=
  wd_fetch_pages fetchPage page_limit max_pages 0

/-! ## Backoff, `core.request_with_backoff` -/

/-- One attempt outcome inside the `request_with_backoff` loop: a transport
failure (`httpx.RequestError`) or a response with a status code and an
optional `Retry-After` header value. -/
inductive Attempt where
  | netErr
  | resp (status : Nat) (retryAfter : Option String)
deriving Repr, DecidableEq

/-- `r.status_code in (429, 500, 502, 503, 504)`. -/
def retryable_status (s : Nat) : Bool :=
  s = 429 || s = 500 || s = 502 || s = 503 || s = 504

/-- Python `str.isdigit()` restricted to ASCII decimal digits (nonempty, all
digits). -/
def is_digits (s : String) : Bool :=
  !s.data.isEmpty && s.data.all Char.isDigit

/-- Numeric value of an all-digit string (`float(ra)` on an `isdigit`
string is this natural number). -/
def digits_to_nat (s : String) : Nat :=
  s.data.foldl (fun n c => n * 10 + (c.toNat - 48)) 0

/-- `backoff = min(max_backoff, backoff*2)` with `max_backoff = 16.0`.
Every value the loop can produce is an integer (start 1.0, doubling, cap
16.0, and `float(ra)` of an `isdigit` header is a natural number), so the
float arithmetic is modelled losslessly in ℕ. -/
def backoff_next (b : ℕ) : ℕ := min 16 (b * 2)

/-- The seconds slept before retrying one attempt: `backoff` for a transport
failure or a retryable response without a numeric `Retry-After`, and
`max(float(ra), backoff)` when the header is present and all digits. -/
def attempt_delay (b : ℕ) : Attempt → ℕ
  | .netErr => b
  | .resp _ ra =>
    match ra with
    | some s => if is_digits s then max (digits_to_nat s) b else b
    | none => b

/-- The sequence of sleeps performed by the `request_with_backoff` loop when
the wire produces the given attempt outcomes in order, starting from backoff
state `b`.  The loop stops (returning the response, sleeping nothing) at the
first non-retryable response. -/
def backoff_delays (b : ℕ) : List Attempt → List ℕ
  | [] => []
  | .netErr :: rest => b :: backoff_delays (backoff_next b) rest
  | .resp st ra :: rest =>
    if retryable_status st then
      attempt_delay b (.resp st ra) :: backoff_delays (backoff_next b) rest
    else []

/-- One logical request: `backoff = 1.0` is (re)initialized at the start of
every call of `request_with_backoff`. -/
def request_delays (attempts : List Attempt) : List ℕ :=
  backoff_delays 1 attempts

/-! ## Search, `search.py` (`search_jobs`) -/

/-- The projection both search paths return for one row:
`{title, org, location, url, posted_at}`. -/
structure SearchResult where
  title : String
  org : String
  location : Option String
  url : String
  posted_at : Option String
deriving Repr, DecidableEq

/-- The result projection built from a `jobs` row at the end of
`search_jobs`. -/
def proj (j : Job) : SearchResult :=
  { title := j.title, org := j.org_name, location := j.location
    url := j.post_url, posted_at := j.posted_at }

/-- Is `pat` a prefix of `hay` (character lists)? -/
def charsStartsWith : List Char → List Char → Bool
  | [], _ => true
  | _ :: _, [] => false
  | p :: ps, h :: hs => p = h && charsStartsWith ps hs

/-- Does `pat` occur as a contiguous sublist of `hay`? -/
def charsContains (hay pat : List Char) : Bool :=
  charsStartsWith pat hay ||
    match hay with
    | [] => false
    | _ :: hs => charsContains hs pat

/-- `column LIKE '%q%'` for a `q` containing no `%`/`_` wildcards: SQLite
LIKE is ASCII-case-insensitive substring containment. -/
def like_contains (hay pat : String) : Bool :=
  charsContains (hay.data.map Char.toLower) (pat.data.map Char.toLower)

/-- The fallback-path row predicate of `search_jobs`:
`title LIKE ? OR description LIKE ? OR org_name LIKE ? OR location LIKE ?`
(a NULL `location` makes its disjunct NULL, i.e. not satisfied). -/
def like_match (q : String) (j : Job) : Bool :=
  like_contains j.title q || like_contains j.description q ||
  like_contains j.org_name q ||
  (match j.location with
   | some l => like_contains l q
   | none => false)

/-- FTS5 `unicode61` tokenization restricted to ASCII text: case-fold and
split on non-alphanumeric characters, dropping empty segments. -/
def fts_tokens (s : String) : List String :=
  ((splitChars (fun c => !c.isAlphanum) s.data).filter (fun t => t ≠ [])).map
    (fun l => ⟨l.map Char.toLower⟩)

/-- The tokens of one `job_fts` row; the triggers in `core.FTS_DDL` keep the
index columns equal to `(title, description, org_name, COALESCE(location,''))`
of the `jobs` row. -/
def job_fts_tokens (j : Job) : List String :=
  fts_tokens j.title ++ fts_tokens j.description ++ fts_tokens j.org_name ++
    fts_tokens (j.location.getD "")

/-- The indexed-path row predicate of `search_jobs`: `job_fts MATCH q` for a
query with no FTS5 syntax characters, i.e. every token of the query occurs
as a whole token somewhere in the row's indexed columns (implicit AND of
bare-token terms). -/
def fts_match (q : String) (j : Job) : Bool :=
  (fts_tokens q).all (fun t => (job_fts_tokens j).contains t)

/-- SQLite BINARY collation `a >= b` on TEXT (codepoint-wise, equal to
bytewise for the ASCII data used here). -/
def str_ge (a b : String) : Bool := !decide (a < b)

/-- The comparator of `ORDER BY posted_at DESC NULLS LAST, first_seen_at
DESC` (shared verbatim by both paths): `a` may sit at or before `b`. -/
def jobs_le (a b : Job) : Bool :=
  match a.posted_at, b.posted_at with
  | some pa, some pb => if pa = pb then str_ge a.first_seen_at b.first_seen_at
                        else decide (pb < pa)
  | some _, none => true
  | none, some _ => false
  | none, none => str_ge a.first_seen_at b.first_seen_at

/-- Stable insertion step for `sort_rows`. -/
def insert_ord (x : Job) : List Job → List Job
  | [] => [x]
  | y :: ys => if jobs_le x y then x :: y :: ys else y :: insert_ord x ys

/-- Deterministic (stable) realisation of the SQL `ORDER BY` — both query
branches use the identical ORDER BY clause, modelled by the identical
function. -/
def sort_rows : List Job → List Job
  | [] => []
  | x :: xs => insert_ord x (sort_rows xs)

/-- `if loc:` — an empty-string location filter is falsy and disables the
filter, like `None`. -/
def loc_truthy : Option String → Option String
  | some l => if l = "" then none else some l
  | none => none

/-- `AND jobs.location = :loc` when the filter is truthy (NULL locations
never compare equal). -/
def loc_filter (loc : Option String) (j : Job) : Bool :=
  match loc_truthy loc with
  | some l => j.location = some l
  | none => true

/-- The indexed (FTS) branch of `search_jobs`: filter by MATCH and the
optional exact-location filter, order, cap at `limit`, project. -/
def search_fts (db : List Job) (q : String) (loc : Option String)
    (limit : Nat) : List SearchResult :=
  (((sort_rows ((db.filter (fts_match q)).filter (loc_filter loc))).take limit).map proj)

/-- The fallback (LIKE) branch of `search_jobs`: filter by substring match
and the optional exact-location filter, order, cap at `limit`, project. -/
def search_like (db : List Job) (q : String) (loc : Option String)
    (limit : Nat) : List SearchResult :=
  (((sort_rows ((db.filter (like_match q)).filter (loc_filter loc))).take limit).map proj)

/-! ## Normalizer, `normalizer.py` -/

/-- Python-regex `\w` over the case-folded ASCII text used here. -/
def isWordChar (c : Char) : Bool := c.isAlphanum || c = '_'

/-- ASCII `str.lower()`. -/
def toLowerStr (s : String) : String := ⟨s.data.map Char.toLower⟩

/-- If `w` is a prefix of `t`, the remaining characters. -/
def dropExact : List Char → List Char → Option (List Char)
  | [], t => some t
  | _ :: _, [] => none
  | w :: ws, c :: cs => if w = c then dropExact ws cs else none

/-- `\b` just after a literal ending in a word character: end of text or a
non-word character. -/
def boundary_after : List Char → Bool
  | [] => true
  | c :: _ => !isWordChar c

/-- Scan `t` for an occurrence of the literal `w` (which starts and ends in
word characters) delimited by word boundaries; `prevWord` says whether the
character before the current position is a word character. -/
def scanWord (w : List Char) : Bool → List Char → Bool
  | prevWord, [] =>
    !prevWord &&
      (match dropExact w [] with
       | some rest => boundary_after rest
       | none => false)
  | prevWord, c :: rest =>
    (!prevWord &&
      (match dropExact w (c :: rest) with
       | some r => boundary_after r
       | none => false)) ||
    scanWord w (isWordChar c) rest

/-- `re.search` of `\b<alt>\b` for one literal alternative `alt` (the
patterns' optional parts are expanded into literal alternatives; the `\.?`
in `jr\.?`/`sr\.?` is redundant under the trailing `\b` and drops away). -/
def containsWordB (text alt : String) : Bool :=
  scanWord alt.data false text.data

/-- Does any literal alternative of a pattern match with word boundaries? -/
def matchesAny (text : String) (alts : List String) : Bool :=
  alts.any (fun a => containsWordB text a)

/-- `LEVEL_PATTERNS`, each regex expanded into its literal alternatives, in
the source's priority order. -/
def LEVEL_PATTERNS : List (List String × String) :=
  [ (["intern", "internship", "coop", "co-op", "co op"], "intern")
  , (["entrylevel", "entry-level", "entry level", "junior", "jr"], "junior")
  , (["senior", "sr"], "senior")
  , (["principal", "staff", "lead"], "principal")
  , (["manager", "managing"], "manager")
  , (["director", "head of"], "director") ]

/-- `WORK_TYPE_PATTERNS` expanded into literal alternatives. -/
def WORK_TYPE_PATTERNS : List (List String × String) :=
  [ (["onsite", "on-site", "on site"], "onsite")
  , (["hybrid"], "hybrid")
  , (["remote"], "remote") ]

/-- `EMPLOYMENT_PATTERNS` expanded into literal alternatives. -/
def EMPLOYMENT_PATTERNS : List (List String × String) :=
  [ (["fulltime", "full-time", "full time"], "full-time")
  , (["parttime", "part-time", "part time"], "part-time")
  , (["contract", "contractor", "temporary", "temp", "fixedterm", "fixed-term",
      "fixed term"], "contract") ]

/-- `normalizer.infer_level(text)`: first pattern (in priority order) that
matches the case-folded text. -/
def infer_level (text : String) : Option String :=
  let t := toLowerStr text
  match LEVEL_PATTERNS.find? (fun p => matchesAny t p.1) with
  | some p => some p.2
  | none => none

/-- `normalizer.infer_work_type(text, location_text)`: first matching
pattern over `" ".join([text or "", location_text or ""]).lower()`, with a
plain-substring `"remote" in location_text.lower()` fallback. -/
def infer_work_type (text : String) (location_text : Option String) : Option String :=
  let blob := toLowerStr (joinWith " " [text, location_text.getD ""])
  match WORK_TYPE_PATTERNS.find? (fun p => matchesAny blob p.1) with
  | some p => some p.2
  | none =>
    match location_text with
    | some l =>
      if l ≠ "" && charsContains (toLowerStr l).data "remote".data then some "remote"
      else none
    | none => none

/-- `normalizer.infer_employment(text)`. -/
def infer_employment (text : String) : Option String :=
  let t := toLowerStr text
  match EMPLOYMENT_PATTERNS.find? (fun p => matchesAny t p.1) with
  | some p => some p.2
  | none => none

/-- `normalizer.split_location(loc)`: split on `[;/|-]`, take the first
segment, split that on commas into up to three comma parts (city, state,
country), and set the remote flag when `\bremote\b` occurs anywhere in the
raw string (case-insensitive). -/
def split_location (loc : Option String) :
    Option String × Option String × Option String × Option Nat :=
  match loc with
  | none => (none, none, none, none)
  | some l =>
    if l = "" then (none, none, none, none)
    else
      let parts := (splitChars (fun c => c = ';' || c = '/' || c = '|' || c = '-') l.data).map
        (fun cs => pyStrip ⟨cs⟩)
      let first := parts.headD ""
      let frags := (splitChars (fun c => c = ',') first.data).map (fun cs => pyStrip ⟨cs⟩)
      let city := frags.headD ""
      let state := if frags.length ≥ 2 then frags.getD 1 "" else ""
      let country := if frags.length ≥ 3 then frags.getD 2 "" else ""
      let remote := if containsWordB (toLowerStr l) "remote" then some 1 else none
      ( if city = "" then none else some city
      , if state = "" then none else some state
      , if country = "" then none else some country
      , remote )

/-- The derived-attribute record returned by `normalize_fields`. -/
structure NormFields where
  role_level : Option String
  work_type : Option String
  employment_type : Option String
  city : Option String
  state : Option String
  country : Option String
  remote : Option Nat
deriving Repr, DecidableEq

/-- `normalizer.normalize_fields(title, desc, location)`. -/
def normalize_fields (title desc : String) (location : Option String) : NormFields :=
  let sl := split_location location
  { role_level := infer_level (title ++ " " ++ desc)
    work_type := infer_work_type desc location
    employment_type := infer_employment (title ++ " " ++ desc)
    city := sl.1
    state := sl.2.1
    country := sl.2.2.1
    remote := sl.2.2.2 }

/-! ## Concrete instances used in witnesses and counterexamples -/

def gh_ex : GhJob :=
  { absolute_url := some "https://x.co/a", title := some "Senior Backend Engineer"
    location_name := some "Remote - USA", content := some ""
    updated_at := some "2024-01-02T00:00:00+00:00", created_at := none }

def c2_row : Job :=
  { board_token := "tok", org_name := "Acme", title := "T", description := "D"
    location := none, post_url := "https://x.co/a", posted_at := some "2020-01-01"
    first_seen_at := "t0", last_seen_at := "t0", canonical_key := "https://x.co/a" }

def c2_rec : GhJob :=
  { absolute_url := some "https://x.co/a", title := some "T", location_name := none
    content := none, updated_at := none, created_at := none }

def c3_rec : GhJob :=
  { absolute_url := some "https://x.co/a", title := some "T2", location_name := some "L2"
    content := some "D2", updated_at := none, created_at := none }

def c3_incoming : Job :=
  { board_token := "tok", org_name := "NewOrg", title := "T2", description := "D2"
    location := some "L2", post_url := "https://x.co/a", posted_at := none
    first_seen_at := "t2", last_seen_at := "t2", canonical_key := "https://x.co/a" }

def c5_row : Job :=
  { board_token := "tok", org_name := "X", title := "Engineer", description := ""
    location := none, post_url := "u", posted_at := none
    first_seen_at := "t", last_seen_at := "t", canonical_key := "k" }

def c5_row2 : Job :=
  { board_token := "tok", org_name := "Y", title := "alpha beta", description := "d"
    location := some "NYC", post_url := "u2", posted_at := some "2024"
    first_seen_at := "t", last_seen_at := "t", canonical_key := "k2" }

def ghBlank : GhJob :=
  { absolute_url := none, title := none, location_name := none, content := none
    updated_at := none, created_at := none }

def wdBlankTitle : WdJob :=
  { title := some "   ", subtitles := ["Acme"], locationsText := some "NYC"
    location := none, postedOn := some "2024-01-01", postedDate := none
    createdOn := none, externalPath := some "/job/1", externalUrlPath := none }

def wdNoPath : WdJob :=
  { title := some "Engineer", subtitles := [], locationsText := none
    location := none, postedOn := none, postedDate := none, createdOn := none
    externalPath := none, externalUrlPath := some "" }

/-- Does an attempt carry no all-digit `Retry-After` header (so that its
sleep is the plain `backoff` value)? -/
def no_numeric_ra : Attempt → Bool
  | .resp _ (some s) => !is_digits s
  | _ => true

/-! ## Helper lemmas about the shared upsert statement -/

theorem db_upsert_fresh (db : List Job) (r : Job)
    (h : ∀ x ∈ db, x.canonical_key ≠ r.canonical_key) :
    db_upsert db r = db ++ [r] := by
  have hany : db.any (fun j => j.canonical_key = r.canonical_key) = false := by
    rw [List.any_eq_false]
    intro x hx
    simpa using h x hx
  simp [db_upsert, hany]

theorem db_upsert_hit (db : List Job) (r : Job)
    (h : ∃ x ∈ db, x.canonical_key = r.canonical_key) :
    db_upsert db r =
      db.map (fun j => if j.canonical_key = r.canonical_key then row_update r j else j) := by
  have hany : db.any (fun j => j.canonical_key = r.canonical_key) = true := by
    rw [List.any_eq_true]
    obtain ⟨x, hx, hk⟩ := h
    exact ⟨x, hx, by simpa using hk⟩
  simp [db_upsert, hany]

theorem map_update_id (l : List Job) (r : Job)
    (h : ∀ x ∈ l, x.canonical_key ≠ r.canonical_key) :
    l.map (fun j => if j.canonical_key = r.canonical_key then row_update r j else j) = l := by
  induction l with
  | nil => rfl
  | cons x xs ih =>
    simp only [List.map_cons]
    rw [if_neg (h x (by simp)), ih (fun y hy => h y (by simp [hy]))]

theorem filter_key_not (l : List Job) (k : String)
    (h : ∀ x ∈ l, x.canonical_key ≠ k) :
    l.filter (fun x => x.canonical_key = k) = [] := by
  rw [List.filter_eq_nil_iff]
  intro x hx
  simpa using h x hx

/-! ## Claims -/

/-- C1: for a raw Greenhouse record with a usable (nonblank) canonical URL
and a store holding no row with its fingerprint, upserting the record twice
(observed at `t1` then `t2`) leaves exactly one stored row keyed by the md5
fingerprint of the URL, with `first_seen_at` still `t1` and `last_seen_at`
advanced to `t2`. -/
theorem upsert_twice_one_row (db : List Job) (tok org t1 t2 : String) (j : GhJob)
    (hne : pyStrip (j.absolute_url.getD "") ≠ "")
    (hfresh : ∀ x ∈ db, x.canonical_key ≠ md5hex (pyStrip (j.absolute_url.getD ""))) :
    ∃ r : Job,
      (gh_upsert_job (gh_upsert_job db tok org j t1) tok org j t2).filter
          (fun x => x.canonical_key = md5hex (pyStrip (j.absolute_url.getD ""))) = [r]
      ∧ r.first_seen_at = t1 ∧ r.last_seen_at = t2 := by
  have hkey1 : (gh_row tok org j t1).canonical_key
      = md5hex (pyStrip (j.absolute_url.getD "")) := rfl
  have hkey2 : (gh_row tok org j t2).canonical_key
      = md5hex (pyStrip (j.absolute_url.getD "")) := rfl
  have h1 : gh_upsert_job db tok org j t1 = db ++ [gh_row tok org j t1] := by
    rw [gh_upsert_job, if_neg hne, db_upsert_fresh]
    intro x hx
    rw [hkey1]
    exact hfresh x hx
  have h2 : gh_upsert_job (db ++ [gh_row tok org j t1]) tok org j t2
      = (db ++ [gh_row tok org j t1]).map
          (fun x => if x.canonical_key = (gh_row tok org j t2).canonical_key then
            row_update (gh_row tok org j t2) x else x) := by
    rw [gh_upsert_job, if_neg hne, db_upsert_hit]
    exact ⟨gh_row tok org j t1, by simp, by rw [hkey1, hkey2]⟩
  refine ⟨row_update (gh_row tok org j t2) (gh_row tok org j t1), ?_, rfl, rfl⟩
  rw [h1, h2, List.map_append, List.filter_append]
  rw [map_update_id db _ (fun x hx => by rw [hkey2]; exact hfresh x hx)]
  rw [filter_key_not db _ hfresh]
  simp only [List.map_cons, List.map_nil, List.nil_append]
  rw [if_pos (by rw [hkey1, hkey2])]
  rw [List.filter_cons_of_pos]
  · rfl
  · simpa using hkey1

/-- C1 witness: the double upsert evaluated at a concrete record on the empty
store. -/
theorem upsert_twice_one_row_witness :
    ∃ r : Job,
      (gh_upsert_job (gh_upsert_job [] "tok" "Acme" gh_ex "t1") "tok" "Acme" gh_ex "t2").filter
          (fun x => x.canonical_key = md5hex (pyStrip (gh_ex.absolute_url.getD ""))) = [r]
      ∧ r.first_seen_at = "t1" ∧ r.last_seen_at = "t2" :=
  upsert_twice_one_row [] "tok" "Acme" "t1" "t2" gh_ex (by decide) (by simp)

/-- C2: if every stored row carrying the record's fingerprint has
`posted_at = some p0`, then after the upsert those rows keep `some p0` when
the record's derived timestamp is null, and take the incoming value when it
is non-null. -/
theorem upsert_posted_monotone (db : List Job) (tok org t p0 : String) (j : GhJob)
    (hne : pyStrip (j.absolute_url.getD "") ≠ "")
    (hex : ∃ x ∈ db, x.canonical_key = md5hex (pyStrip (j.absolute_url.getD "")))
    (hall : ∀ x ∈ db, x.canonical_key = md5hex (pyStrip (j.absolute_url.getD "")) →
      x.posted_at = some p0) :
    ∀ x ∈ gh_upsert_job db tok org j t,
      x.canonical_key = md5hex (pyStrip (j.absolute_url.getD "")) →
      x.posted_at = match gh_derived_posted j with
                    | none => some p0
                    | some q => some q := by
  intro x hx hk
  have hkey : (gh_row tok org j t).canonical_key
      = md5hex (pyStrip (j.absolute_url.getD "")) := rfl
  rw [gh_upsert_job, if_neg hne, db_upsert_hit _ _ (by rw [hkey]; exact hex)] at hx
  rw [List.mem_map] at hx
  obtain ⟨y, hy, hxy⟩ := hx
  by_cases h : y.canonical_key = md5hex (pyStrip (j.absolute_url.getD ""))
  · rw [if_pos (by rw [hkey]; exact h)] at hxy
    subst hxy
    have hpost : y.posted_at = some p0 := hall y hy h
    show (match (gh_row tok org j t).posted_at with
          | some p => some p
          | none => y.posted_at) = _
    have : (gh_row tok org j t).posted_at = gh_derived_posted j := rfl
    rw [this, hpost]
    cases gh_derived_posted j <;> rfl
  · rw [if_neg (by rw [hkey]; exact h)] at hxy
    subst hxy
    exact absurd hk h

/-- C2 witness: a stored row with a non-null `posted_at` upserted against a
record whose derived timestamp is null keeps its timestamp. -/
theorem upsert_posted_monotone_witness :
    ((gh_upsert_job [c2_row] "tok" "Acme" c2_rec "t1").headD c2_row).posted_at
      = some "2020-01-01" :=
  upsert_posted_monotone [c2_row] "tok" "Acme" "t1" "2020-01-01" c2_rec
    (by decide) (by decide) (by decide)
    ((gh_upsert_job [c2_row] "tok" "Acme" c2_rec "t1").headD c2_row)
    (by decide) (by decide)

/-- C3 counterexample: the claim says the stored organization name is
overwritten on conflict; upserting under org `"Acme"` and then under org
`"NewOrg"` leaves the stored `org_name` at `"Acme"` (the `DO UPDATE` list
omits `org_name`). -/
theorem upsert_org_not_overwritten :
    (gh_upsert_job (gh_upsert_job [] "tok" "Acme" c3_rec "t1") "tok" "NewOrg" c3_rec "t2").map
        Job.org_name = ["Acme"]
    ∧ ("Acme" : String) ≠ "NewOrg" := by decide

/-- C3 amended: on an identity-key conflict the stored title, description
and location are overwritten with the incoming values (and `last_seen_at`
advanced), but the organization name is not updated — it keeps the value of
a previously stored row with that key. -/
theorem upsert_overwrites_except_org (db : List Job) (r : Job)
    (hex : ∃ x ∈ db, x.canonical_key = r.canonical_key) :
    ∀ y ∈ db_upsert db r, y.canonical_key = r.canonical_key →
      y.title = r.title ∧ y.description = r.description ∧ y.location = r.location ∧
      y.last_seen_at = r.last_seen_at ∧
      ∃ x ∈ db, x.canonical_key = r.canonical_key ∧ y.org_name = x.org_name := by
  intro y hy hk
  rw [db_upsert_hit db r hex, List.mem_map] at hy
  obtain ⟨x, hx, hxy⟩ := hy
  by_cases h : x.canonical_key = r.canonical_key
  · rw [if_pos h] at hxy
    subst hxy
    exact ⟨rfl, rfl, rfl, rfl, x, hx, h, rfl⟩
  · rw [if_neg h] at hxy
    subst hxy
    exact absurd hk h

/-- C3 witness: the amended statement evaluated at one stored row and one
conflicting incoming row. -/
theorem upsert_overwrites_except_org_witness :
    ((db_upsert [c2_row] c3_incoming).headD c2_row).title = c3_incoming.title
    ∧ ((db_upsert [c2_row] c3_incoming).headD c2_row).description = c3_incoming.description
    ∧ ((db_upsert [c2_row] c3_incoming).headD c2_row).location = c3_incoming.location
    ∧ ((db_upsert [c2_row] c3_incoming).headD c2_row).last_seen_at = c3_incoming.last_seen_at
    ∧ ∃ x ∈ [c2_row], x.canonical_key = c3_incoming.canonical_key ∧
        ((db_upsert [c2_row] c3_incoming).headD c2_row).org_name = x.org_name :=
  upsert_overwrites_except_org [c2_row] c3_incoming (by decide)
    ((db_upsert [c2_row] c3_incoming).headD c2_row) (by decide) (by decide)

/-- C4 counterexample: a Lever record carrying both timestamps derives
`posted_at` from `createdAt`, not from `updatedAt` (the code reads
`j.get("createdAt") or j.get("updatedAt")`), so "every adapter variant
prefers the update-time" fails. -/
theorem lever_posted_prefers_created :
    lever_derived_posted { leverEmpty with createdAt := some 1000, updatedAt := some 2000 }
      = some (fromtimestamp_iso 1000)
    ∧ lever_derived_posted { leverEmpty with updatedAt := some 2000 }
      = some (fromtimestamp_iso 2000)
    ∧ fromtimestamp_iso 1000 ≠ fromtimestamp_iso 2000 := by decide

/-- C4 amended: the Greenhouse adapter prefers the update-time
(`updated_at or created_at`), while the Lever adapter prefers the
create-time (`createdAt or updatedAt`). -/
theorem posted_at_source_preference :
    (∀ (j : GhJob) (u : String), j.updated_at = some u → u ≠ "" →
       gh_derived_posted j = parse_iso (some u))
    ∧ (∀ (j : LeverJob) (n : Int), j.createdAt = some n → n ≠ 0 →
       lever_derived_posted j = some (fromtimestamp_iso n)) := by
  constructor
  · intro j u hu hne
    rw [gh_derived_posted, hu]
    simp [pyOr, hne]
  · intro j n hn hne
    rw [lever_derived_posted, hn]
    simp [pyOrInt, hne]

/-- C4 witness: the amended preference evaluated at concrete records. -/
theorem posted_at_source_preference_witness :
    gh_derived_posted { gh_ex with created_at := some "2023-01-01" }
      = parse_iso (some "2024-01-02T00:00:00+00:00")
    ∧ lever_derived_posted { leverEmpty with createdAt := some 5 }
      = some (fromtimestamp_iso 5) :=
  ⟨posted_at_source_preference.1 _ "2024-01-02T00:00:00+00:00" rfl (by decide),
   posted_at_source_preference.2 _ 5 rfl (by decide)⟩

/-- C5 counterexample: for the special-character-free query `"eng"` the FTS
path matches whole tokens only (the token `engineer` is not the token `eng`)
while the fallback path matches substrings, so the two paths return
different result sequences on the same store. -/
theorem search_paths_differ :
    ("eng".data.all (fun c => c.isAlphanum)) = true
    ∧ search_fts [c5_row] "eng" none 20 = []
    ∧ search_like [c5_row] "eng" none 20 = [proj c5_row] := by decide

/-- C5 amended: both paths share the projection, the exact-location filter,
the `ORDER BY posted_at DESC NULLS LAST, first_seen_at DESC` ordering and
the limit, so they return identical ranked sequences exactly when their row
predicates (whole-token match vs. substring match) agree on every stored
row; the predicates are not equivalent in general, even for queries with no
full-text-syntax characters. -/
theorem search_paths_agree_on_matches (db : List Job) (q : String)
    (loc : Option String) (limit : Nat)
    (h : ∀ j ∈ db, fts_match q j = like_match q j) :
    search_fts db q loc limit = search_like db q loc limit := by
  rw [search_fts, search_like, List.filter_congr h]

/-- C5 witness: the amended equivalence evaluated on a store where the two
predicates agree for the query. -/
theorem search_paths_agree_witness :
    search_fts [c5_row2] "alpha" (some "NYC") 5
      = search_like [c5_row2] "alpha" (some "NYC") 5 :=
  search_paths_agree_on_matches [c5_row2] "alpha" (some "NYC") 5 (by decide)

/-- C8: a Greenhouse or Lever record whose canonical URL is missing or blank
after trimming is skipped — the store is returned unchanged (and the total
function raises nothing), so the batch continues. -/
theorem skip_blank_url :
    (∀ (db : List Job) (tok org now : String) (j : GhJob),
       pyStrip (j.absolute_url.getD "") = "" → gh_upsert_job db tok org j now = db)
    ∧ (∀ (db : List Job) (company now : String) (j : LeverJob),
       pyStrip ((pyOr j.hostedUrl (pyOr j.applyUrl none)).getD "") = "" →
       lever_upsert_job db company j now = db) := by
  constructor
  · intro db tok org now j h
    rw [gh_upsert_job, if_pos h]
  · intro db company now j h
    simp only [lever_upsert_job, h, if_pos]

/-- C8 witness: records with no URL fields at all leave an empty store
empty. -/
theorem skip_blank_url_witness :
    gh_upsert_job [] "tok" "Org" ghBlank "t" = []
    ∧ lever_upsert_job [] "acme" leverEmpty "t" = [] :=
  ⟨skip_blank_url.1 [] "tok" "Org" "t" ghBlank (by decide),
   skip_blank_url.2 [] "acme" "t" leverEmpty (by decide)⟩

/-- C9: `normalize_fields("Senior Backend Engineer", "", "Remote - USA")`
yields `role_level = "senior"` and `work_type = "remote"`. -/
theorem normalize_senior_remote :
    (normalize_fields "Senior Backend Engineer" "" (some "Remote - USA")).role_level
      = some "senior"
    ∧ (normalize_fields "Senior Backend Engineer" "" (some "Remote - USA")).work_type
      = some "remote" := by decide

/-- C10: the Workday adapter also skips a record — no store write — when its
title is missing or blank after trimming, or when both `externalPath` and
`externalUrlPath` are missing or blank, whatever the other fields hold. -/
theorem wd_skip_conditions (db : List Job) (label now : String) (rec : WdJob) :
    (pyStrip (rec.title.getD "") = "" → wd_upsert_job db label rec now = db)
    ∧ (pyStrip (rec.title.getD "") ≠ "" →
       (pyOr rec.externalPath rec.externalUrlPath).getD "" = "" →
       wd_upsert_job db label rec now = db) := by
  constructor
  · intro h
    simp only [wd_upsert_job, h, if_pos]
  · intro h1 h2
    simp only [wd_upsert_job, h2]
    rw [if_neg h1]
    simp

/-- C10 witness: a blank-title record and a record with no external path
both leave an empty store empty. -/
theorem wd_skip_conditions_witness :
    wd_upsert_job [] "https://t.wd.com/wday/cxs/t/site/jobs" wdBlankTitle "t" = []
    ∧ wd_upsert_job [] "https://t.wd.com/wday/cxs/t/site/jobs" wdNoPath "t" = [] :=
  ⟨(wd_skip_conditions [] "https://t.wd.com/wday/cxs/t/site/jobs" "t" wdBlankTitle).1
      (by decide),
   (wd_skip_conditions [] "https://t.wd.com/wday/cxs/t/site/jobs" "t" wdNoPath).2
      (by decide) (by decide)⟩

theorem backoff_delays_head (b : ℕ) (atts : List Attempt)
    (h : ∀ a ∈ atts, no_numeric_ra a = true) :
    backoff_delays b atts = [] ∨ ∃ tl, backoff_delays b atts = b :: tl := by
  cases atts with
  | nil => exact Or.inl rfl
  | cons a rest =>
    cases a with
    | netErr => exact Or.inr ⟨_, rfl⟩
    | resp st ra =>
      by_cases hr : retryable_status st = true
      · refine Or.inr ⟨backoff_delays (backoff_next b) rest, ?_⟩
        have hd : attempt_delay b (.resp st ra) = b := by
          cases ra with
          | none => rfl
          | some s =>
            have hna := h (Attempt.resp st (some s)) (List.mem_cons_self _ _)
            simp only [no_numeric_ra, Bool.not_eq_true'] at hna
            simp [attempt_delay, hna]
        simp [backoff_delays, hr, hd]
      · exact Or.inl (by simp [backoff_delays, hr])

theorem backoff_delays_le (atts : List Attempt) : ∀ b : ℕ, b ≤ 16 →
    (∀ a ∈ atts, no_numeric_ra a = true) →
    ∀ d ∈ backoff_delays b atts, d ≤ 16 := by
  induction atts with
  | nil =>
    intro b hb h d hd
    simp [backoff_delays] at hd
  | cons a rest ih =>
    intro b hb h d hd
    have hb' : backoff_next b ≤ 16 := min_le_left _ _
    have hrest : ∀ x ∈ rest, no_numeric_ra x = true := fun x hx => h x (by simp [hx])
    cases a with
    | netErr =>
      simp only [backoff_delays, List.mem_cons] at hd
      rcases hd with hd | hd
      · exact hd ▸ hb
      · exact ih _ hb' hrest d hd
    | resp st ra =>
      by_cases hr : retryable_status st = true
      · have hdel : attempt_delay b (.resp st ra) = b := by
          cases ra with
          | none => rfl
          | some s =>
            have hna := h (Attempt.resp st (some s)) (List.mem_cons_self _ _)
            simp only [no_numeric_ra, Bool.not_eq_true'] at hna
            simp [attempt_delay, hna]
        simp only [backoff_delays, hr, if_true, List.mem_cons, hdel] at hd
        rcases hd with hd | hd
        · exact hd ▸ hb
        · exact ih _ hb' hrest d hd
      · simp [backoff_delays, hr] at hd

theorem backoff_delays_chain (atts : List Attempt) : ∀ b : ℕ, b ≤ 16 →
    (∀ a ∈ atts, no_numeric_ra a = true) →
    List.Chain' (· ≤ ·) (backoff_delays b atts) := by
  induction atts with
  | nil =>
    intro b _ _
    simp [backoff_delays]
  | cons a rest ih =>
    intro b hb h
    have hb' : backoff_next b ≤ 16 := min_le_left _ _
    have hble : b ≤ backoff_next b := le_min hb (by omega)
    have hrest : ∀ x ∈ rest, no_numeric_ra x = true := fun x hx => h x (by simp [hx])
    have hch : List.Chain' (· ≤ ·) (backoff_delays (backoff_next b) rest) :=
      ih _ hb' hrest
    have hhead : ∀ y ∈ (backoff_delays (backoff_next b) rest).head?, b ≤ y := by
      intro y hy
      rcases backoff_delays_head (backoff_next b) rest hrest with h0 | ⟨tl, h0⟩
      · rw [h0] at hy
        simp at hy
      · rw [h0] at hy
        simp at hy
        exact hy ▸ hble
    cases a with
    | netErr => exact List.chain'_cons'.mpr ⟨hhead, hch⟩
    | resp st ra =>
      by_cases hr : retryable_status st = true
      · have hdel : attempt_delay b (.resp st ra) = b := by
          cases ra with
          | none => rfl
          | some s =>
            have hna := h (Attempt.resp st (some s)) (List.mem_cons_self _ _)
            simp only [no_numeric_ra, Bool.not_eq_true'] at hna
            simp [attempt_delay, hna]
        simp only [backoff_delays, hr, if_true, hdel]
        exact List.chain'_cons'.mpr ⟨hhead, hch⟩
      · simp [backoff_delays, hr]

/-- C6 counterexample: a 503 with `Retry-After: 100` followed by a plain 503
sleeps 100 s then 2 s — the delay before the second retry is smaller than
the delay before the first, so delay monotonicity fails as stated when a
numeric `Retry-After` header is honoured. -/
theorem backoff_delay_not_monotone :
    request_delays [.resp 503 (some "100"), .resp 503 none] = [100, 2]
    ∧ ¬ (100 : ℕ) ≤ 2 := by decide

/-- C6 amended: within one logical request, if no retryable response carries
an all-digit `Retry-After` header, the slept delays are nondecreasing and
each is capped at 16 s; the first delay of a request is exactly 1 s (the
`backoff` local restarts at 1.0 per call). -/
theorem backoff_monotone_amended (attempts : List Attempt)
    (h : ∀ a ∈ attempts, no_numeric_ra a = true) :
    List.Chain' (· ≤ ·) (request_delays attempts)
    ∧ (∀ d ∈ request_delays attempts, d ≤ 16)
    ∧ (request_delays attempts ≠ [] → (request_delays attempts).headD 0 = 1) := by
  refine ⟨backoff_delays_chain attempts 1 (by norm_num) h,
    backoff_delays_le attempts 1 (by norm_num) h, ?_⟩
  intro hne
  rcases backoff_delays_head 1 attempts h with h0 | ⟨tl, h0⟩
  · exact absurd h0 hne
  · show (backoff_delays 1 attempts).headD 0 = 1
    rw [h0]
    rfl

/-- C6 witness: the amended statement evaluated on three plain retryable
outcomes. -/
theorem backoff_monotone_amended_witness :
    List.Chain' (· ≤ ·) (request_delays [.resp 503 none, .resp 429 none, .netErr])
    ∧ (∀ d ∈ request_delays [.resp 503 none, .resp 429 none, .netErr], d ≤ 16)
    ∧ (request_delays [.resp 503 none, .resp 429 none, .netErr] ≠ [] →
       (request_delays [.resp 503 none, .resp 429 none, .netErr]).headD 0 = 1) :=
  backoff_monotone_amended [.resp 503 none, .resp 429 none, .netErr] (by decide)

theorem wd_fetch_pages_count_le {α : Type} (f : Nat → List α) (l : Nat) :
    ∀ (fuel off : Nat), (wd_fetch_pages f l fuel off).2 ≤ fuel := by
  intro fuel
  induction fuel with
  | zero =>
    intro off
    simp [wd_fetch_pages]
  | succ n ih =>
    intro off
    by_cases h1 : (f off).isEmpty = true
    · simp [wd_fetch_pages, h1]
    · by_cases h2 : (f off).length < l
      · simp [wd_fetch_pages, h1, h2]
      · have := ih (off + l)
        simp only [wd_fetch_pages, h1, h2]
        simp only [Bool.false_eq_true, if_false, if_neg h2]
        omega

theorem wd_fetch_pages_succ {α : Type} (f : Nat → List α) (l fuel off : Nat) :
    wd_fetch_pages f l (fuel + 1) off =
      if (f off).isEmpty then ([], 1)
      else if (f off).length < l then (f off, 1)
      else (f off ++ (wd_fetch_pages f l fuel (off + l)).1,
            (wd_fetch_pages f l fuel (off + l)).2 + 1) := rfl

theorem wd_fetch_pages_stops {α : Type} (f : Nat → List α) (l : Nat) (hl : 0 < l) :
    ∀ (n fuel off : Nat), n + 1 ≤ fuel →
    (∀ i < n, (f (off + i * l)).length = l) →
    (f (off + n * l)).length < l →
    wd_fetch_pages f l fuel off
      = (((List.range (n + 1)).map (fun i => f (off + i * l))).flatten, n + 1) := by
  intro n
  induction n with
  | zero =>
    intro fuel off hfuel hfull hshort
    obtain ⟨k, hk⟩ := Nat.exists_eq_add_of_le hfuel
    subst hk
    rw [show 0 + 1 + k = k + 1 by omega, wd_fetch_pages_succ]
    simp only [Nat.zero_mul, Nat.add_zero] at hshort
    by_cases he : (f off).isEmpty = true
    · rw [if_pos he]
      have h0 : f off = [] := List.isEmpty_iff.mp he
      simp [List.range_succ, h0]
    · rw [if_neg he, if_pos hshort]
      simp [List.range_succ]
  | succ n ih =>
    intro fuel off hfuel hfull hshort
    obtain ⟨k, hk⟩ := Nat.exists_eq_add_of_le hfuel
    subst hk
    have hfull0 : (f off).length = l := by
      have h0 := hfull 0 (Nat.succ_pos n)
      simpa using h0
    have hnemp : ¬ (f off).isEmpty = true := by
      intro hc
      rw [List.isEmpty_iff.mp hc] at hfull0
      simp at hfull0
      omega
    have hnlt : ¬ (f off).length < l := by
      rw [hfull0]
      omega
    have hrec := ih (n + 1 + k) (off + l) (by omega)
      (fun i hi => by
        have h2 := hfull (i + 1) (by omega)
        rw [show off + (i + 1) * l = off + l + i * l by ring] at h2
        exact h2)
      (by
        rw [show off + l + n * l = off + (n + 1) * l by ring]
        exact hshort)
    have hr : ((List.range (n + 1 + 1)).map (fun i => f (off + i * l))).flatten
        = f off ++ ((List.range (n + 1)).map (fun i => f (off + l + i * l))).flatten := by
      rw [List.range_succ_eq_map, List.map_cons, List.map_map, List.flatten_cons]
      congr 1
      · simp
      · have hfun : ((fun i => f (off + i * l)) ∘ Nat.succ)
            = (fun i => f (off + l + i * l)) := by
          funext i
          simp only [Function.comp_apply, Nat.succ_eq_add_one]
          congr 1
          ring
        rw [hfun]
    rw [show n + 1 + 1 + k = (n + 1 + k) + 1 by omega, wd_fetch_pages_succ,
      if_neg hnemp, if_neg hnlt, hrec, hr]

/-- C7: the paginated Workday fetch issues at most `max_pages` page
requests; whenever the first `n` pages are full (`page_limit` records each)
and page `n` comes back short (or empty), it stops right there — exactly
`n + 1` page requests — returning all fetched pages concatenated in request
order; in particular a full first page followed by a short second page means
exactly two page requests. -/
theorem wd_pagination_behaviour :
    (∀ (α : Type) (f : Nat → List α) (page_limit max_pages : Nat),
       (wd_fetch_jobs f page_limit max_pages).2 ≤ max_pages)
    ∧ (∀ (α : Type) (f : Nat → List α) (page_limit max_pages n : Nat),
         n + 1 ≤ max_pages → 0 < page_limit →
         (∀ i < n, (f (i * page_limit)).length = page_limit) →
         (f (n * page_limit)).length < page_limit →
         wd_fetch_jobs f page_limit max_pages
           = (((List.range (n + 1)).map (fun i => f (i * page_limit))).flatten, n + 1))
    ∧ (∀ (α : Type) (f : Nat → List α) (page_limit max_pages : Nat) (p0 p1 : List α),
         2 ≤ max_pages → 0 < page_limit →
         f 0 = p0 → f page_limit = p1 →
         p0.length = page_limit → p1.length < page_limit →
         wd_fetch_jobs f page_limit max_pages = (p0 ++ p1, 2)) := by
  refine ⟨?_, ?_, ?_⟩
  · intro α f page_limit max_pages
    exact wd_fetch_pages_count_le f page_limit max_pages 0
  · intro α f page_limit max_pages n hle hpos hfull hshort
    have h := wd_fetch_pages_stops f page_limit hpos n max_pages 0 hle
      (fun i hi => by simpa using hfull i hi) (by simpa using hshort)
    simp only [Nat.zero_add] at h
    exact h
  · intro α f page_limit max_pages p0 p1 h2 hpos hf0 hfl hlen0 hlen1
    have hfull : ∀ i < 1, (f (i * page_limit)).length = page_limit := by
      intro i hi
      have hi0 : i = 0 := Nat.lt_one_iff.mp hi
      subst hi0
      rw [Nat.zero_mul, hf0]
      exact hlen0
    have hshort : (f (1 * page_limit)).length < page_limit := by
      rw [Nat.one_mul, hfl]
      exact hlen1
    have h := wd_fetch_pages_stops f page_limit hpos 1 max_pages 0 (by omega)
      (fun i hi => by simpa using hfull i hi) (by simpa using hshort)
    show wd_fetch_pages f page_limit max_pages 0 = (p0 ++ p1, 2)
    rw [h]
    congr 1
    simp [List.range_succ, hf0, hfl]

/-- C7 witness: a source with two full pages (2 of 2 records) and a short
third page (1 of 2) is fetched in exactly three page requests, records
concatenated in request order. -/
theorem wd_pagination_behaviour_witness :
    wd_fetch_jobs
      (fun off => if off = 0 then [10, 20] else if off = 2 then [30, 40]
                  else if off = 4 then [50] else ([] : List Nat))
      2 40 = ([10, 20, 30, 40, 50], 3) :=
  wd_pagination_behaviour.2.1 Nat
    (fun off => if off = 0 then [10, 20] else if off = 2 then [30, 40]
                else if off = 4 then [50] else ([] : List Nat))
    2 40 2 (by norm_num) (by norm_num) (by decide) (by decide)
